import Mathlib

/-!
Shallow embedding of the yatube blogging application (posts app) for
specification checking.  Entities come from src/posts/models.py, the view
operations from src/posts/views.py, pagination from the Django 2.2
Paginator the views delegate to, and the list-page cache from the spec
(its wiring, posts/urls.py, is not part of src).
-/

namespace Yatube

/-- A user record.  Django auth User: numeric pk plus unique username. -/
structure AppUser where
  id : Nat
  username : String
deriving DecidableEq, Repr

/-- posts/models.py Group: title, slug, description. -/
structure Group where
  id : Nat
  title : String
  slug : String
  description : String
deriving DecidableEq, Repr

/-- posts/models.py Post: text, pub_date (auto_now_add), author FK
(CASCADE), optional group FK (SET_NULL), optional image. -/
structure Post where
  id : Nat
  text : String
  pub_date : Nat
  author : Nat
  group : Option Nat
  image : Option String
deriving DecidableEq, Repr

/-- posts/models.py Comment: post FK (CASCADE), author FK (CASCADE),
text, created (auto_now_add). -/
structure Comment where
  id : Nat
  post : Nat
  author : Nat
  text : String
  created : Nat
deriving DecidableEq, Repr

/-- Modelled from the spec: the Follow model is imported by
src/posts/views.py from .models but its declaration is missing from the
src snapshot.  The spec says a Follow edge is a pair
(follower user, followed user); views.py reads the follower side through
related_name 'follower' and the followed side through 'following'. -/
structure Follow where
  user : Nat
  author : Nat
deriving DecidableEq, Repr

/-- The persisted relational state (Entity Store). -/
structure Store where
  users : List AppUser
  groups : List Group
  posts : List Post
  comments : List Comment
  follows : List Follow
deriving DecidableEq, Repr

/-- Responses the posts views can produce. -/
inductive Response where
  | redirectLogin (next : String)
  | redirectIndex
  | redirectProfile (username : String)
  | redirectPost (username : String) (postId : Nat)
  | renderPage (template : String)
  | notFound
deriving DecidableEq, Repr

/-- Username of a user id, if the user exists. -/
def usernameOf (s : Store) (uid : Nat) : Option String :=
  (s.users.find? (fun u => u.id = uid)).map (fun u => u.username)

/-- get_object_or_404(Post, author__username=username, pk=post_id). -/
def getPost404 (s : Store) (username : String) (postId : Nat) : Option Post :=
  s.posts.find? (fun p => p.id = postId && usernameOf s p.author = some username)

/-! ## Pagination (Django 2.2 Paginator, orphans = 0,
allow_empty_first_page = True), as called by every feed view:
Paginator(post_list, 10).get_page(request.GET.get('page')). -/

/-- Paginator.num_pages: ceil(max(1, count) / per_page). -/
def numPages (count per : Nat) : Nat :=
  (max 1 count + per - 1) / per

/-- Errors Paginator.validate_number raises. -/
inductive PageError where
  | notAnInteger
  | emptyPage
deriving DecidableEq, Repr

/-- Paginator.validate_number: a non-integer page argument (including the
absent one) is notAnInteger; an integer below 1 or above num_pages is
emptyPage (except page 1 of an empty allow-empty paginator). -/
def validateNumber (count per : Nat) (n : Option Int) : Except PageError Nat :=
  match n with
  | none => .error .notAnInteger
  | some i =>
      if i < 1 then .error .emptyPage
      else if (numPages count per : Int) < i then
        if i = 1 then .ok 1 else .error .emptyPage
      else .ok i.toNat

/-- Paginator.get_page: recovers from both errors — notAnInteger becomes
page 1, emptyPage becomes the last page. -/
def getPageNumber (count per : Nat) (n : Option Int) : Nat :=
  match validateNumber count per n with
  | .ok k => k
  | .error .notAnInteger => 1
  | .error .emptyPage => numPages count per

/-- The object_list slice of the page get_page selects. -/
def getPageItems (items : List Post) (per : Nat) (n : Option Int) : List Post :=
  let k := getPageNumber items.length per n
  (items.drop ((k - 1) * per)).take per

/-! ## Feed ordering.  posts/models.py Post.Meta: ordering = ['-pub_date'],
i.e. ORDER BY pub_date DESC and nothing else.  A result sequence is any
permutation of the selected rows that is sorted descending by pub_date. -/

/-- The comparison Meta.ordering = ['-pub_date'] imposes between
consecutive rows: the later row's timestamp is not larger. -/
def pubDescending (a b : Post) : Prop := b.pub_date ≤ a.pub_date

instance : DecidableRel pubDescending := fun a b =>
  inferInstanceAs (Decidable (b.pub_date ≤ a.pub_date))

/-- The set of result sequences the ordering constraint admits for a given
row set: permutations of the rows that are sorted descending by
pub_date. -/
def admissibleFeed (rows seq : List Post) : Prop :=
  seq.Perm rows ∧ seq.Sorted pubDescending

instance (rows seq : List Post) : Decidable (admissibleFeed rows seq) :=
  inferInstanceAs (Decidable (_ ∧ _))

/-- One concrete descending insertion used by the executable model of the
index rendering (insert into an already-sorted-descending list). -/
def insertDesc (p : Post) : List Post → List Post
  | [] => [p]
  | q :: t => if q.pub_date ≤ p.pub_date then p :: q :: t else q :: insertDesc p t

/-- Executable descending sort by pub_date for the rendered index page. -/
def sortFeed : List Post → List Post
  | [] => []
  | q :: t => insertDesc q (sortFeed t)

/-! ## Social graph operations (src/posts/views.py). -/

/-- The Follow.objects.filter(user=..., author=...) row count used by the
profile, profile_follow and profile_unfollow views. -/
def followEdgeCount (s : Store) (u a : Nat) : Nat :=
  (s.follows.filter (fun f => f.user = u && f.author = a)).length

/-- profile view: following = (Follow.objects.filter(user, author).count() > 0). -/
def isFollowing (s : Store) (u a : Nat) : Bool :=
  followEdgeCount s u a > 0

/-- profile_follow view (state effect): if author != request.user and no
edge exists yet, save a new Follow(user, author); otherwise do nothing. -/
def profileFollow (s : Store) (u a : Nat) : Store :=
  if a ≠ u then
    if followEdgeCount s u a = 0 then
      { s with follows := s.follows ++ [⟨u, a⟩] }
    else s
  else s

/-- profile_unfollow view (state effect): if author != request.user and an
edge exists, delete Follow.objects.filter(user, author); otherwise do
nothing. -/
def profileUnfollow (s : Store) (u a : Nat) : Store :=
  if a ≠ u then
    if followEdgeCount s u a = 0 then s
    else { s with follows := s.follows.filter (fun f => !(f.user = u && f.author = a)) }
  else s

/-- follow_index view, author set: User.objects.filter(
following__in=request.user.follower.all()) — the authors of the follow
edges whose follower side is the requester. -/
def followedAuthors (s : Store) (u : Nat) : List Nat :=
  (s.follows.filter (fun f => f.user = u)).map (fun f => f.author)

/-- follow_index view, row set: Post.objects.filter(author__in=authors). -/
def followIndexPosts (s : Store) (u : Nat) : List Post :=
  s.posts.filter (fun p => (followedAuthors s u).contains p.author)

/-! ## Post / comment view operations (src/posts/views.py).  Form
validation is an external collaborator (forms.py is not in src), so the
operations take the validity predicate as an argument; the operations
only consult it on the paths views.py does. -/

/-- The fields PostForm carries (text, group, image). -/
structure PostPayload where
  text : String
  group : Option Nat
  image : Option String
deriving DecidableEq, Repr

/-- form.save() on an existing instance: overwrite the form's fields,
leave pk, author and pub_date alone. -/
def applyEdit (p : Post) (pl : PostPayload) : Post :=
  { p with text := pl.text, group := pl.group, image := pl.image }

/-- new_post view.  @login_required sends an anonymous requester to the
login flow with the original destination as the next parameter and the
store untouched; an authenticated requester with a valid form saves a
post authored by themselves and is redirected to the index. -/
def newPost (s : Store) (requester : Option Nat) (path : String) (pl : PostPayload)
    (valid : PostPayload → Bool) (newId now : Nat) : Store × Response :=
  match requester with
  | none => (s, .redirectLogin path)
  | some u =>
      if valid pl then
        ({ s with posts := s.posts ++ [⟨newId, pl.text, now, u, pl.group, pl.image⟩] },
         .redirectIndex)
      else (s, .renderPage "new_post.html")

/-- post_edit view.  No authentication gate: the post is fetched first,
and any requester other than the author (the anonymous requester
included) is redirected to the post detail view with nothing saved. -/
def postEdit (s : Store) (requester : Option Nat) (username : String) (postId : Nat)
    (pl : PostPayload) (valid : PostPayload → Bool) : Store × Response :=
  match getPost404 s username postId with
  | none => (s, .notFound)
  | some post =>
      if requester ≠ some post.author then (s, .redirectPost username postId)
      else if valid pl then
        ({ s with posts := s.posts.map (fun q => if q.id = post.id then applyEdit q pl else q) },
         .redirectPost username postId)
      else (s, .renderPage "new_post.html")

/-- add_comment view.  Behind @login_required; saves the comment only when
the form is valid, and redirects to the post detail view either way
(the redirect uses post.author.username, which the 404 lookup has
already constrained to equal the requested username). -/
def addComment (s : Store) (requester : Option Nat) (path username : String) (postId : Nat)
    (text : String) (valid : String → Bool) (newId now : Nat) : Store × Response :=
  match requester with
  | none => (s, .redirectLogin path)
  | some u =>
      match getPost404 s username postId with
      | none => (s, .notFound)
      | some post =>
          if valid text then
            ({ s with comments := s.comments ++ [⟨newId, post.id, u, text, now⟩] },
             .redirectPost username post.id)
          else (s, .redirectPost username post.id)

/-- Modelled from the spec: forms.py (CommentForm) is absent from src.
The comment text column is a required TextField, so the empty payload
fails validation. -/
def commentFormValid (text : String) : Bool := !(text = "")

/-! ## Deletion policies (the on_delete referential actions declared in
src/posts/models.py). -/

/-- Does the store hold a post with this pk authored by u?  Used to follow
the two-step cascade user → posts → comments. -/
def postAuthoredBy (s : Store) (u pid : Nat) : Bool :=
  (s.posts.find? (fun p => p.id = pid)).any (fun p => p.author = u)

/-- Deleting a Group: Post.group is on_delete=SET_NULL, so posts of the
group survive with group set to null. -/
def deleteGroup (s : Store) (g : Nat) : Store :=
  { s with groups := s.groups.filter (fun x => !(x.id = g)),
           posts := s.posts.map (fun p => if p.group = some g then { p with group := none } else p) }

/-- Deleting a Post: Comment.post is on_delete=CASCADE, so its comments go
with it. -/
def deletePost (s : Store) (pid : Nat) : Store :=
  { s with posts := s.posts.filter (fun p => !(p.id = pid)),
           comments := s.comments.filter (fun c => !(c.post = pid)) }

/-- Deleting a user: Post.author and Comment.author are on_delete=CASCADE,
and comments on the user's posts go through the Post cascade.  Follow
edges touching the user are removed as well (FK to User; the Follow
declaration is outside src, cascading is the Django default). -/
def deleteUser (s : Store) (u : Nat) : Store :=
  { s with users := s.users.filter (fun x => !(x.id = u)),
           posts := s.posts.filter (fun p => !(p.author = u)),
           comments := s.comments.filter
             (fun c => !(c.author = u) && !(postAuthoredBy s u c.post)),
           follows := s.follows.filter (fun f => !(f.user = u) && !(f.author = u)) }

/-! ## The global index page and its cache. -/

/-- Post.objects.create / form.save for a fresh post: append the new row. -/
def createPost (s : Store) (p : Post) : Store :=
  { s with posts := s.posts ++ [p] }

/-- The rendered output of the index view: the requested page of the
descending feed together with the paginator count (the data
render('index.html', {page, paginator}) serializes). -/
def renderIndex (s : Store) (n : Option Int) : List Post × Nat :=
  (getPageItems (sortFeed s.posts) 10 n, s.posts.length)

/-- The cache cell behind the global index: at most one stored rendering
tagged with the time it was computed. -/
structure PageCache where
  entry : Option (Nat × (List Post × Nat))
deriving DecidableEq, Repr

/-- The flushed (empty) cache. -/
def emptyCache : PageCache := ⟨none⟩

/-- Modelled from the spec: the List-Page Cache wraps the index rendering
(its wiring, posts/urls.py, is absent from src; exercised by
src/posts/tests.py test_cached_index_page).  Within ttl of the stored
entry the stored output is returned verbatim and the feed is not
recomputed (the Bool reports a hit); on miss or expiry the output is
computed fresh and stored at the current time. -/
def fetchIndex (ttl now : Nat) (c : PageCache) (s : Store) (n : Option Int) :
    (List Post × Nat) × PageCache × Bool :=
  match c.entry with
  | some (t, v) =>
      if now < t + ttl then (v, c, true)
      else (renderIndex s n, ⟨some (now, renderIndex s n)⟩, false)
  | none => (renderIndex s n, ⟨some (now, renderIndex s n)⟩, false)

/-! ## Concrete fixtures used by witness theorems. -/

/-- Fixture user 1. -/
def alice : AppUser := ⟨1, "alice"⟩

/-- Fixture user 2. -/
def bob : AppUser := ⟨2, "bob"⟩

/-- Fixture post authored by alice, in group 7. -/
def post1 : Post := ⟨1, "hello", 5, 1, some 7, none⟩

/-- Fixture post authored by bob. -/
def post2 : Post := ⟨2, "news", 8, 2, none, none⟩

/-- Fixture comment by bob on post1. -/
def comment1 : Comment := ⟨1, 1, 2, "nice", 9⟩

/-- Fixture group. -/
def group7 : Group := ⟨7, "TEST", "test", ""⟩

/-- Fixture store: two users, one group, two posts, one comment, bob
follows alice. -/
def baseStore : Store := ⟨[alice, bob], [group7], [post1, post2], [comment1], [⟨2, 1⟩]⟩

/-! ## Claims. -/

/-- C6: for every post and every requester who is not its author,
submitting an edit leaves the store — hence every field of the post —
unchanged, and the response redirects to the post's detail view. -/
theorem postEdit_nonauthor_is_frame (s : Store) (requester : Option Nat)
    (username : String) (postId : Nat) (pl : PostPayload) (valid : PostPayload → Bool)
    (post : Post) (hfind : getPost404 s username postId = some post)
    (hne : requester ≠ some post.author) :
    postEdit s requester username postId pl valid = (s, .redirectPost username postId) := by
  unfold postEdit
  rw [hfind]
  simp [hne]

/-- Witness for C6 at a concrete store: bob edits alice's post. -/
theorem postEdit_nonauthor_is_frame_witness :
    postEdit baseStore (some 2) "alice" 1 ⟨"hacked", none, none⟩ (fun _ => true)
      = (baseStore, .redirectPost "alice" 1) :=
  postEdit_nonauthor_is_frame baseStore (some 2) "alice" 1 ⟨"hacked", none, none⟩
    (fun _ => true) post1 (by decide) (by decide)

/-- C9: post_edit has no authentication gate — an anonymous requester is
treated exactly like any authenticated non-author: silently redirected to
the post's detail view (never to the login flow) with the store
unchanged. -/
theorem postEdit_unauthenticated_like_nonauthor (s : Store) (username : String)
    (postId : Nat) (pl : PostPayload) (valid : PostPayload → Bool) (post : Post)
    (hfind : getPost404 s username postId = some post) :
    postEdit s none username postId pl valid = (s, .redirectPost username postId) ∧
    (∀ nxt, (postEdit s none username postId pl valid).2 ≠ .redirectLogin nxt) ∧
    (∀ r, r ≠ post.author →
      postEdit s (some r) username postId pl valid = postEdit s none username postId pl valid) := by
  have hanon : postEdit s none username postId pl valid = (s, .redirectPost username postId) := by
    unfold postEdit
    rw [hfind]
    simp
  refine ⟨hanon, ?_, ?_⟩
  · intro nxt
    rw [hanon]
    simp
  · intro r hr
    have : postEdit s (some r) username postId pl valid = (s, .redirectPost username postId) := by
      unfold postEdit
      rw [hfind]
      simp [hr]
    rw [this, hanon]

/-- Witness for C9 at a concrete store: anonymous edit of alice's post. -/
theorem postEdit_unauthenticated_like_nonauthor_witness :
    postEdit baseStore none "alice" 1 ⟨"hacked", none, none⟩ (fun _ => true)
      = (baseStore, .redirectPost "alice" 1) :=
  (postEdit_unauthenticated_like_nonauthor baseStore "alice" 1 ⟨"hacked", none, none⟩
    (fun _ => true) post1 (by decide)).1

/-- C7: for every unauthenticated requester and every payload, new_post
creates no Post record and redirects to the login flow carrying the
original destination as the return-path parameter. -/
theorem newPost_unauthenticated_redirects (s : Store) (path : String) (pl : PostPayload)
    (valid : PostPayload → Bool) (newId now : Nat) :
    (newPost s none path pl valid newId now).1 = s ∧
    (newPost s none path pl valid newId now).2 = .redirectLogin path :=
  ⟨rfl, rfl⟩

/-- C10: for every authenticated requester and existing post, a comment
payload the form rejects creates no Comment record and still redirects to
the post's detail view; the form is never redisplayed. -/
theorem addComment_invalid_still_redirects (s : Store) (u : Nat) (path username : String)
    (postId : Nat) (text : String) (valid : String → Bool) (newId now : Nat) (post : Post)
    (hfind : getPost404 s username postId = some post)
    (hinvalid : valid text = false) :
    addComment s (some u) path username postId text valid newId now
      = (s, .redirectPost username post.id) := by
  unfold addComment
  rw [hfind]
  simp [hinvalid]

/-- Witness for C10: bob submits the empty comment, which the modelled
CommentForm rejects; the store is unchanged and the response is the post
detail redirect. -/
theorem addComment_invalid_still_redirects_witness :
    addComment baseStore (some 2) "/alice/1/comment/" "alice" 1 "" commentFormValid 5 30
      = (baseStore, .redirectPost "alice" 1) :=
  addComment_invalid_still_redirects baseStore 2 "/alice/1/comment/" "alice" 1 ""
    commentFormValid 5 30 post1 (by decide) (by decide)

/-- C8: deleting a Group nulls the group reference of its posts and keeps
every post (all other columns intact, same rows in the same order);
deleting a user deletes all posts and comments they authored; deleting a
Post deletes all of its Comments. -/
theorem deletion_policies (s : Store) (g u pid : Nat) :
    ((deleteGroup s g).posts.length = s.posts.length ∧
     (deleteGroup s g).posts.map Post.id = s.posts.map Post.id ∧
     (deleteGroup s g).posts.map Post.text = s.posts.map Post.text ∧
     (deleteGroup s g).posts.map Post.pub_date = s.posts.map Post.pub_date ∧
     (deleteGroup s g).posts.map Post.author = s.posts.map Post.author ∧
     (deleteGroup s g).posts.map Post.image = s.posts.map Post.image ∧
     (deleteGroup s g).posts.all (fun p => !(p.group = some g)) = true) ∧
    ((deleteUser s u).posts.all (fun p => !(p.author = u)) = true ∧
     (deleteUser s u).comments.all (fun c => !(c.author = u)) = true) ∧
    (deletePost s pid).comments.all (fun c => !(c.post = pid)) = true := by
  refine ⟨⟨?_, ?_, ?_, ?_, ?_, ?_, ?_⟩, ⟨?_, ?_⟩, ?_⟩
  · simp [deleteGroup]
  · simp only [deleteGroup, List.map_map]
    refine List.map_congr_left ?_
    intro p _
    simp only [Function.comp]
    split <;> rfl
  · simp only [deleteGroup, List.map_map]
    refine List.map_congr_left ?_
    intro p _
    simp only [Function.comp]
    split <;> rfl
  · simp only [deleteGroup, List.map_map]
    refine List.map_congr_left ?_
    intro p _
    simp only [Function.comp]
    split <;> rfl
  · simp only [deleteGroup, List.map_map]
    refine List.map_congr_left ?_
    intro p _
    simp only [Function.comp]
    split <;> rfl
  · simp only [deleteGroup, List.map_map]
    refine List.map_congr_left ?_
    intro p _
    simp only [Function.comp]
    split <;> rfl
  · simp only [deleteGroup, List.all_eq_true, List.mem_map]
    rintro b ⟨p, _, rfl⟩
    split <;> simp_all
  · simp [deleteUser, List.all_eq_true, List.mem_filter]
  · simp only [deleteUser, List.all_eq_true, List.mem_filter]
    intro c hc
    have h2 := hc.2
    simp only [Bool.and_eq_true] at h2
    exact h2.1
  · simp [deletePost, List.all_eq_true, List.mem_filter]

/-- The count-based following test of the profile view agrees with
existence of a matching Follow edge. -/
lemma isFollowing_iff_exists (s : Store) (u a : Nat) :
    isFollowing s u a = true ↔ ∃ f ∈ s.follows, f.user = u ∧ f.author = a := by
  simp [isFollowing, followEdgeCount, List.length_pos_iff_exists_mem, List.mem_filter]

/-- Not following means the edge count of the pair is zero. -/
lemma not_following_iff_count_zero (s : Store) (u a : Nat) :
    isFollowing s u a = false ↔ followEdgeCount s u a = 0 := by
  simp [isFollowing, Nat.pos_iff_ne_zero]

/-- C4: a post is in A's following feed iff it is a stored post whose
author A follows (in the sense of the profile view's following test), and
a requester who follows no one gets the empty feed. -/
theorem followIndex_membership (s : Store) (u : Nat) (p : Post) :
    (p ∈ followIndexPosts s u ↔ p ∈ s.posts ∧ isFollowing s u p.author = true) ∧
    (followedAuthors s u = [] → followIndexPosts s u = []) := by
  constructor
  · rw [isFollowing_iff_exists]
    simp [followIndexPosts, List.mem_filter, followedAuthors, List.mem_map,
      and_assoc, eq_comm]
  · intro h
    simp [followIndexPosts, h, List.filter_eq_nil_iff]

/-- Witness for C4: in the fixture store bob (2) follows alice (1), so
alice's post is in bob's following feed and an empty author set gives the
empty feed. -/
theorem followIndex_membership_witness :
    (post1 ∈ followIndexPosts baseStore 2 ↔
      post1 ∈ baseStore.posts ∧ isFollowing baseStore 2 post1.author = true) ∧
    followIndexPosts ⟨[alice, bob], [], [post1], [], []⟩ 2 = [] :=
  ⟨(followIndex_membership baseStore 2 post1).1,
   (followIndex_membership ⟨[alice, bob], [], [post1], [], []⟩ 2 post1).2 (by decide)⟩

/-- C5: over stores satisfying the self-follow-forbidden invariant (which
the operations preserve): follow is a no-op on a self-pair or an existing
edge and otherwise creates exactly one edge; unfollow removes a present
edge and is a no-op on an absent one; is_following is false when no edge
exists, true right after a (non-self) follow, false after unfollow; and
following twice in a row leaves exactly one edge. -/
theorem social_graph_follow_unfollow (s : Store) (u a : Nat)
    (hinv : ∀ f ∈ s.follows, f.user ≠ f.author) :
    profileFollow s u u = s ∧
    (isFollowing s u a = true → profileFollow s u a = s) ∧
    (u ≠ a → isFollowing s u a = false →
      followEdgeCount (profileFollow s u a) u a = 1 ∧
      isFollowing (profileFollow s u a) u a = true) ∧
    (isFollowing s u a = true → isFollowing (profileUnfollow s u a) u a = false) ∧
    (isFollowing s u a = false → profileUnfollow s u a = s) ∧
    (s.follows = [] → isFollowing s u a = false) ∧
    (u ≠ a → isFollowing s u a = false →
      followEdgeCount (profileFollow (profileFollow s u a) u a) u a = 1) ∧
    (∀ f ∈ (profileFollow s u a).follows, f.user ≠ f.author) := by
  have hcreate : u ≠ a → isFollowing s u a = false →
      followEdgeCount (profileFollow s u a) u a = 1 := by
    intro hne hnot
    have hz := (not_following_iff_count_zero s u a).mp hnot
    have hau : a ≠ u := fun h => hne h.symm
    simp only [profileFollow, if_pos hau, if_pos hz]
    simp only [followEdgeCount, List.filter_append] at hz ⊢
    simp [hz]
  have hexisting : ∀ t : Store, isFollowing t u a = true → profileFollow t u a = t := by
    intro t ht
    unfold profileFollow
    split
    · have : followEdgeCount t u a ≠ 0 := by
        simp [isFollowing, Nat.pos_iff_ne_zero] at ht
        exact ht
      simp [this]
    · rfl
  refine ⟨?_, hexisting s, ?_, ?_, ?_, ?_, ?_, ?_⟩
  · simp [profileFollow]
  · intro hne hnot
    have h1 := hcreate hne hnot
    refine ⟨h1, ?_⟩
    simp [isFollowing, h1]
  · intro ht
    by_cases hau : a = u
    · exfalso
      obtain ⟨f, hf, hfu, hfa⟩ := (isFollowing_iff_exists s u a).mp ht
      exact hinv f hf (by rw [hfu, hfa, hau])
    · have hne : followEdgeCount s u a ≠ 0 := by
        simp [isFollowing, Nat.pos_iff_ne_zero] at ht
        exact ht
      have hau' : a ≠ u := hau
      have hstep : profileUnfollow s u a =
          { s with follows := s.follows.filter (fun f => !(f.user = u && f.author = a)) } := by
        unfold profileUnfollow
        rw [if_pos hau', if_neg hne]
      rw [not_following_iff_count_zero, hstep]
      simp only [followEdgeCount, List.filter_filter]
      rw [List.length_eq_zero, List.filter_eq_nil_iff]
      intro f _
      cases h1 : (decide (f.user = u) && decide (f.author = a)) <;> simp [h1]
  · intro hnot
    have hz := (not_following_iff_count_zero s u a).mp hnot
    unfold profileUnfollow
    split
    · simp [hz]
    · rfl
  · intro h
    simp [isFollowing, followEdgeCount, h]
  · intro hne hnot
    have h1 := hcreate hne hnot
    have h2 : isFollowing (profileFollow s u a) u a = true := by
      simp [isFollowing, h1]
    rw [hexisting _ h2]
    exact h1
  · intro f hf
    unfold profileFollow at hf
    by_cases hau : a ≠ u
    · simp only [if_pos hau] at hf
      by_cases hz : followEdgeCount s u a = 0
      · simp only [if_pos hz, List.mem_append, List.mem_singleton] at hf
        rcases hf with hf | hf
        · exact hinv f hf
        · rw [hf]
          intro h
          exact hau h.symm
      · simp only [if_neg hz] at hf
        exact hinv f hf
    · simp only [if_neg hau] at hf
      exact hinv f hf

/-- Witness for C5 at the fixture store: alice (1) does not yet follow
bob (2); one follow creates exactly one edge and a second follow keeps it
at one. -/
theorem social_graph_follow_unfollow_witness :
    followEdgeCount (profileFollow baseStore 1 2) 1 2 = 1 ∧
    isFollowing (profileFollow baseStore 1 2) 1 2 = true ∧
    followEdgeCount (profileFollow (profileFollow baseStore 1 2) 1 2) 1 2 = 1 := by
  have h := social_graph_follow_unfollow baseStore 1 2 (by decide)
  exact ⟨(h.2.2.1 (by decide) (by decide)).1, (h.2.2.1 (by decide) (by decide)).2,
    h.2.2.2.2.2.2.1 (by decide) (by decide)⟩

/-- A paginator over a nonempty page size always has at least one page. -/
lemma one_le_numPages (count per : Nat) (hper : 0 < per) : 1 ≤ numPages count per := by
  unfold numPages
  have h1 : 1 ≤ max 1 count := le_max_left 1 count
  exact (Nat.one_le_div_iff hper).mpr (by omega)

/-- Closed form of get_page's recovery behaviour. -/
lemma getPageNumber_eq (count per : Nat) (i : Int) :
    getPageNumber count per (some i) =
      if i < 1 then numPages count per
      else if (numPages count per : Int) < i then
        (if i = 1 then 1 else numPages count per)
      else i.toNat := by
  unfold getPageNumber validateNumber
  by_cases h1 : i < 1
  · simp [h1]
  · by_cases h2 : (numPages count per : Int) < i
    · by_cases h3 : i = 1 <;> simp [h1, h2, h3]
    · simp [h1, h2]

/-- C2 counterexample: with 11 items and page size 10 there are two pages,
and requesting page 0 returns page 2 — the last page — not page 1 as the
claim states. -/
theorem paginator_page_zero_counterexample :
    numPages 11 10 = 2 ∧ getPageNumber 11 10 (some 0) = 2 ∧
    getPageNumber 11 10 (some 0) ≠ 1 := by decide

/-- C2 amended: get_page never errors and always lands on a page between
1 and the page count; an integer request above the page count returns the
last page, and so does page 0 or a negative page (not page 1); an
in-range request is honoured; a missing page argument returns page 1. -/
theorem paginator_get_page_clamps (count per : Nat) (hper : 0 < per) (i : Int) :
    1 ≤ getPageNumber count per (some i) ∧
    getPageNumber count per (some i) ≤ numPages count per ∧
    ((numPages count per : Int) < i → getPageNumber count per (some i) = numPages count per) ∧
    (i < 1 → getPageNumber count per (some i) = numPages count per) ∧
    (1 ≤ i → i ≤ (numPages count per : Int) → getPageNumber count per (some i) = i.toNat) ∧
    getPageNumber count per none = 1 := by
  have hnp := one_le_numPages count per hper
  refine ⟨?_, ?_, ?_, ?_, ?_, rfl⟩
  · rw [getPageNumber_eq]
    split_ifs <;> omega
  · rw [getPageNumber_eq]
    split_ifs <;> omega
  · intro h
    rw [getPageNumber_eq]
    split_ifs <;> omega
  · intro h
    rw [getPageNumber_eq]
    rw [if_pos h]
  · intro ha hb
    rw [getPageNumber_eq]
    split_ifs <;> omega

/-- Witness for the amended C2 at 11 items, page size 10: page 99 and page
-3 both land on the last page (2), page 2 is honoured. -/
theorem paginator_get_page_clamps_witness :
    getPageNumber 11 10 (some 99) = numPages 11 10 ∧
    getPageNumber 11 10 (some (-3)) = numPages 11 10 ∧
    getPageNumber 11 10 (some 2) = 2 := by
  refine ⟨(paginator_get_page_clamps 11 10 (by decide) 99).2.2.1 (by decide),
    (paginator_get_page_clamps 11 10 (by decide) (-3)).2.2.2.1 (by decide), ?_⟩
  have h := (paginator_get_page_clamps 11 10 (by decide) 2).2.2.2.2.1 (by decide) (by decide)
  simpa using h

/-- Fixture: two distinct posts sharing one publication timestamp. -/
def tiedA : Post := ⟨1, "first", 5, 1, none, none⟩

/-- Fixture: the second post of the tied pair, inserted after tiedA. -/
def tiedB : Post := ⟨2, "second", 5, 1, none, none⟩

/-- C3 counterexample: ordering = ['-pub_date'] alone constrains the feed;
with two posts sharing a pub_date the constraint also admits the sequence
that reverses insertion order, so ties are not broken by insertion order
and the result sequence is not uniquely determined. -/
theorem feed_order_tie_counterexample :
    admissibleFeed [tiedA, tiedB] [tiedB, tiedA] ∧
    admissibleFeed [tiedA, tiedB] [tiedA, tiedB] ∧
    [tiedB, tiedA] ≠ [tiedA, tiedB] ∧
    ¬ (∀ seq : List Post, admissibleFeed [tiedA, tiedB] seq → seq = [tiedA, tiedB]) := by
  refine ⟨by decide, by decide, by decide, fun h => ?_⟩
  exact absurd (h [tiedB, tiedA] (by decide)) (by decide)

/-- Two sorted-descending permutations of each other with no repeated
timestamp are equal. -/
lemma sorted_desc_perm_eq : ∀ {l1 l2 : List Post}, l1.Perm l2 →
    l1.Sorted pubDescending → l2.Sorted pubDescending →
    (l1.map Post.pub_date).Nodup → l1 = l2 := by
  intro l1
  induction l1 with
  | nil =>
    intro l2 h _ _ _
    exact h.nil_eq
  | cons a t ih =>
    intro l2 h hs1 hs2 hnd
    cases l2 with
    | nil =>
      exact absurd h.eq_nil (by simp)
    | cons b t2 =>
      by_cases hab : a = b
      · subst hab
        have htail := ih h.cons_inv (List.sorted_cons.mp hs1).2 (List.sorted_cons.mp hs2).2
          (List.nodup_cons.mp (by simpa using hnd)).2
        rw [htail]
      · exfalso
        have hbmem : b ∈ t := by
          have hb : b ∈ a :: t := h.symm.subset (List.mem_cons_self b t2)
          cases List.mem_cons.mp hb with
          | inl hh => exact absurd hh.symm hab
          | inr hh => exact hh
        have hamem : a ∈ t2 := by
          have ha : a ∈ b :: t2 := h.subset (List.mem_cons_self a t)
          cases List.mem_cons.mp ha with
          | inl hh => exact absurd hh hab
          | inr hh => exact hh
        have h1 : b.pub_date ≤ a.pub_date := (List.sorted_cons.mp hs1).1 b hbmem
        have h2 : a.pub_date ≤ b.pub_date := (List.sorted_cons.mp hs2).1 a hamem
        have heq : a.pub_date = b.pub_date := le_antisymm h2 h1
        have hnotin : a.pub_date ∉ t.map Post.pub_date :=
          (List.nodup_cons.mp (by simpa using hnd)).1
        exact hnotin (heq ▸ List.mem_map_of_mem Post.pub_date hbmem)

/-- C3 amended: when no two selected posts share a publication timestamp,
the declared ordering determines the result sequence completely, so the
same query repeated against unchanged data yields the same sequence. -/
theorem feed_order_deterministic_of_distinct (rows l1 l2 : List Post)
    (hnd : (rows.map Post.pub_date).Nodup)
    (h1 : admissibleFeed rows l1) (h2 : admissibleFeed rows l2) : l1 = l2 := by
  have hperm : l1.Perm l2 := h1.1.trans h2.1.symm
  have hnd1 : (l1.map Post.pub_date).Nodup := ((h1.1.map Post.pub_date).nodup_iff).mpr hnd
  exact sorted_desc_perm_eq hperm h1.2 h2.2 hnd1

/-- Witness for the amended C3: the two fixture posts have distinct
timestamps, and the two admissible sequences offered must agree. -/
theorem feed_order_deterministic_of_distinct_witness :
    [post2, post1] = sortFeed [post1, post2] :=
  feed_order_deterministic_of_distinct [post1, post2] [post2, post1] (sortFeed [post1, post2])
    (by decide) (by decide) (by decide)

/-- Appending a post whose timestamp strictly dominates every stored one
puts it at the head of the descending sort. -/
lemma sortFeed_append_strict_max (p : Post) :
    ∀ l : List Post, (∀ q ∈ l, q.pub_date < p.pub_date) →
      ∃ t, sortFeed (l ++ [p]) = p :: t := by
  intro l
  induction l with
  | nil => exact fun _ => ⟨[], rfl⟩
  | cons q l ih =>
    intro h
    obtain ⟨t, ht⟩ := ih (fun r hr => h r (List.mem_cons_of_mem q hr))
    have hq : ¬ p.pub_date ≤ q.pub_date := not_le.mpr (h q (List.mem_cons_self q l))
    refine ⟨insertDesc q t, ?_⟩
    simp only [List.cons_append, sortFeed, List.append_eq, ht, insertDesc, if_neg hq]

/-- A freshly created post with the newest timestamp appears on the first
page of the recomputed index rendering, and the rendered paginator count
grows by one. -/
lemma renderIndex_after_create (s : Store) (p : Post)
    (hmax : ∀ q ∈ s.posts, q.pub_date < p.pub_date) :
    p ∈ (renderIndex (createPost s p) none).1 ∧
    (renderIndex (createPost s p) none).2 = s.posts.length + 1 := by
  obtain ⟨t, ht⟩ := sortFeed_append_strict_max p s.posts hmax
  constructor
  · show p ∈ getPageItems (sortFeed (s.posts ++ [p])) 10 none
    rw [ht]
    show p ∈ ((p :: t).drop ((getPageNumber (p :: t).length 10 none - 1) * 10)).take 10
    have hone : getPageNumber (p :: t).length 10 none = 1 := rfl
    rw [hone]
    simp
  · simp [renderIndex, createPost]

/-- Fixture: a post newer than everything in the fixture store. -/
def p10 : Post := ⟨3, "fresh", 10, 1, none, none⟩

/-- C1: with the cache flushed, a request at t1 renders the store and
populates the cache; a post p newer than everything stored is then
created; a second request within the TTL window returns output
byte-identical to the first straight from the cache (p invisible); the
same request after an explicit flush, or after the TTL expires, is
recomputed and reflects p (p is on the first page and the count has grown
by one). -/
theorem index_cache_behavior (s : Store) (p : Post) (ttl t1 t2 t3 tf : Nat)
    (hmax : ∀ q ∈ s.posts, q.pub_date < p.pub_date)
    (h2in : t2 < t1 + ttl) (h3out : t1 + ttl ≤ t3) :
    (fetchIndex ttl t2 (fetchIndex ttl t1 emptyCache s none).2.1 (createPost s p) none).1
      = (fetchIndex ttl t1 emptyCache s none).1 ∧
    (fetchIndex ttl t2 (fetchIndex ttl t1 emptyCache s none).2.1 (createPost s p) none).2.2
      = true ∧
    p ∈ (fetchIndex ttl tf emptyCache (createPost s p) none).1.1 ∧
    (fetchIndex ttl tf emptyCache (createPost s p) none).1.2 = s.posts.length + 1 ∧
    p ∈ (fetchIndex ttl t3 (fetchIndex ttl t1 emptyCache s none).2.1 (createPost s p) none).1.1 := by
  have hflush := renderIndex_after_create s p hmax
  have hfirst : fetchIndex ttl t1 emptyCache s none =
      (renderIndex s none, ⟨some (t1, renderIndex s none)⟩, false) := rfl
  have hnotin : ¬ t3 < t1 + ttl := not_lt.mpr h3out
  refine ⟨?_, ?_, ?_, ?_, ?_⟩
  · rw [hfirst]
    simp [fetchIndex, h2in]
  · rw [hfirst]
    simp [fetchIndex, h2in]
  · exact hflush.1
  · exact hflush.2
  · rw [hfirst]
    show p ∈ (fetchIndex ttl t3 ⟨some (t1, renderIndex s none)⟩ (createPost s p) none).1.1
    simp only [fetchIndex, if_neg hnotin]
    exact hflush.1

/-- Witness for C1 at a concrete run: fixture store (newest timestamp 8),
new post at timestamp 10, TTL 20, requests at times 0, 5 (hit), flush
request at 30, expiry request at 25. -/
theorem index_cache_behavior_witness :
    p10 ∈ (fetchIndex 20 30 emptyCache (createPost baseStore p10) none).1.1 ∧
    (fetchIndex 20 5 (fetchIndex 20 0 emptyCache baseStore none).2.1
      (createPost baseStore p10) none).1 = (fetchIndex 20 0 emptyCache baseStore none).1 := by
  have h := index_cache_behavior baseStore p10 20 0 5 25 30 (by decide) (by decide) (by decide)
  exact ⟨h.2.2.1, h.1⟩

end Yatube
